import Mathlib

/-!
Verification of the smartula-analysis feature-extraction core.

Shallow embedding of the dataset classes and the sound-feature factory:
* notebooks/data/melspectrogram_dataset.py   (MelSpectrogramDataset)
* notebooks/utils/periodogram_dataset.py     (fft-based PeriodogramDataset)
* notebooks/utils/dataset/periodogram_dataset.py (rfft-based PeriodogramDataset)
* src/utils/feature_factory.py               (SoundFeatureFactory, SoundFeatureType)

Real-valued sample data is modelled over ℚ.
-/

namespace Smartula

/-- Minimum of a nonempty array given as an initial element and a tail,
mirroring numpy's min over the flattened array (fold of binary min). -/
def arrMin (x : ℚ) (xs : List ℚ) : ℚ := xs.foldl min x

/-- Maximum of a nonempty array, fold of binary max. -/
def arrMax (x : ℚ) (xs : List ℚ) : ℚ := xs.foldl max x

/-- Embedding of the line
`MinMaxScaler().fit_transform(a.reshape(-1, 1))` applied to an array `a`:
reshaping to one column makes the scaler compute a single data minimum and
a single data maximum over the whole array, then rescale every entry as
`(v - min) / (max - min)`; sklearn replaces a zero range by 1
(`_handle_zeros_in_scale`), which is the degenerate constant-array case. -/
def minMaxScale (xs : List ℚ) : List ℚ :=
  match xs with
  | [] => []
  | x :: rest =>
    let m := arrMin x rest
    let M := arrMax x rest
    let d := if M - m = 0 then 1 else M - m
    (x :: rest).map (fun v => (v - m) / d)

theorem arrMin_le_init (x : ℚ) (xs : List ℚ) : arrMin x xs ≤ x := by
  induction xs generalizing x with
  | nil => exact le_refl x
  | cons y ys ih =>
    have h := ih (min x y)
    exact le_trans h (min_le_left x y)

theorem arrMin_le_mem (x : ℚ) (xs : List ℚ) (y : ℚ) (hy : y ∈ xs) :
    arrMin x xs ≤ y := by
  induction xs generalizing x with
  | nil => cases hy
  | cons z zs ih =>
    rcases List.mem_cons.mp hy with h | h
    · subst h
      exact le_trans (arrMin_le_init (min x y) zs) (min_le_right x y)
    · exact ih (min x z) h

theorem arrMin_mem (x : ℚ) (xs : List ℚ) :
    arrMin x xs = x ∨ arrMin x xs ∈ xs := by
  induction xs generalizing x with
  | nil => exact Or.inl rfl
  | cons y ys ih =>
    rcases ih (min x y) with h | h
    · rcases min_cases x y with ⟨hc, _⟩ | ⟨hc, _⟩
      · exact Or.inl (by rw [arrMin, List.foldl_cons] at *; rw [h, hc])
      · refine Or.inr (List.mem_cons.mpr (Or.inl ?_))
        rw [arrMin, List.foldl_cons] at *; rw [h, hc]
    · exact Or.inr (List.mem_cons.mpr (Or.inr h))

theorem init_le_arrMax (x : ℚ) (xs : List ℚ) : x ≤ arrMax x xs := by
  induction xs generalizing x with
  | nil => exact le_refl x
  | cons y ys ih =>
    have h := ih (max x y)
    exact le_trans (le_max_left x y) h

theorem mem_le_arrMax (x : ℚ) (xs : List ℚ) (y : ℚ) (hy : y ∈ xs) :
    y ≤ arrMax x xs := by
  induction xs generalizing x with
  | nil => cases hy
  | cons z zs ih =>
    rcases List.mem_cons.mp hy with h | h
    · subst h
      exact le_trans (le_max_right x y) (init_le_arrMax (max x y) zs)
    · exact ih (max x z) h

theorem arrMax_mem (x : ℚ) (xs : List ℚ) :
    arrMax x xs = x ∨ arrMax x xs ∈ xs := by
  induction xs generalizing x with
  | nil => exact Or.inl rfl
  | cons y ys ih =>
    rcases ih (max x y) with h | h
    · rcases max_cases x y with ⟨hc, _⟩ | ⟨hc, _⟩
      · exact Or.inl (by rw [arrMax, List.foldl_cons] at *; rw [h, hc])
      · refine Or.inr (List.mem_cons.mpr (Or.inl ?_))
        rw [arrMax, List.foldl_cons] at *; rw [h, hc]
    · exact Or.inr (List.mem_cons.mpr (Or.inr h))

theorem minMaxScale_bounds (x : ℚ) (rest : List ℚ) (v : ℚ)
    (hv : v ∈ x :: rest) : arrMin x rest ≤ v ∧ v ≤ arrMax x rest := by
  rcases List.mem_cons.mp hv with rfl | h
  · exact ⟨arrMin_le_init v rest, init_le_arrMax v rest⟩
  · exact ⟨arrMin_le_mem x rest v h, mem_le_arrMax x rest v h⟩

/-- C1: with min-max normalization enabled, the returned feature array is
rescaled by min-max scaling with a single minimum and a single maximum
computed over the entire array, and for any non-constant input array the
output's minimum is exactly 0 and its maximum is exactly 1.
Covers both the mel-spectrogram and the periodogram scaling lines, which
both reshape the array to one column before `MinMaxScaler.fit_transform`. -/
theorem minmax_scale_range (xs : List ℚ) (a b : ℚ)
    (ha : a ∈ xs) (hb : b ∈ xs) (hab : a ≠ b) :
    (minMaxScale xs).minimum = (0 : ℚ) ∧ (minMaxScale xs).maximum = (1 : ℚ) := by
  match xs with
  | [] => cases ha
  | x :: rest =>
    have hlt : arrMin x rest < arrMax x rest := by
      rcases lt_or_ge (arrMin x rest) (arrMax x rest) with h | h
      · exact h
      · exfalso
        have h1 := minMaxScale_bounds x rest a ha
        have h2 := minMaxScale_bounds x rest b hb
        exact hab (le_antisymm (le_trans h1.2 (le_trans h h2.1))
          (le_trans h2.2 (le_trans h h1.1)))
    have hne : arrMax x rest - arrMin x rest ≠ 0 :=
      sub_ne_zero.mpr (ne_of_gt hlt)
    have hpos : (0 : ℚ) < arrMax x rest - arrMin x rest := by linarith
    have hunfold : minMaxScale (x :: rest) =
        (x :: rest).map
          (fun v => (v - arrMin x rest) / (arrMax x rest - arrMin x rest)) := by
      simp only [minMaxScale, if_neg hne]
    have hmemMin : arrMin x rest ∈ x :: rest := by
      rcases arrMin_mem x rest with h | h
      · rw [h]; exact List.mem_cons_self x rest
      · exact List.mem_cons.mpr (Or.inr h)
    have hmemMax : arrMax x rest ∈ x :: rest := by
      rcases arrMax_mem x rest with h | h
      · rw [h]; exact List.mem_cons_self x rest
      · exact List.mem_cons.mpr (Or.inr h)
    rw [hunfold]
    constructor
    · rw [List.minimum_eq_coe_iff]
      constructor
      · refine List.mem_map.mpr ⟨arrMin x rest, hmemMin, ?_⟩
        field_simp
      · intro y hy
        rcases List.mem_map.mp hy with ⟨v, hv, hfv⟩
        have hb2 := minMaxScale_bounds x rest v hv
        rw [← hfv]
        exact div_nonneg (by linarith [hb2.1]) (le_of_lt hpos)
    · rw [List.maximum_eq_coe_iff]
      constructor
      · refine List.mem_map.mpr ⟨arrMax x rest, hmemMax, ?_⟩
        field_simp
      · intro y hy
        rcases List.mem_map.mp hy with ⟨v, hv, hfv⟩
        have hb2 := minMaxScale_bounds x rest v hv
        rw [← hfv]
        rw [div_le_one hpos]
        linarith [hb2.2]

/-- Witness for C1 at the concrete non-constant array [1, 3]. -/
theorem minmax_scale_range_witness :
    ((1 : ℚ) ∈ [(1 : ℚ), 3] ∧ (3 : ℚ) ∈ [(1 : ℚ), 3] ∧ (1 : ℚ) ≠ 3) ∧
    (minMaxScale [1, 3]).minimum = (0 : ℚ) ∧
    (minMaxScale [1, 3]).maximum = (1 : ℚ) :=
  ⟨⟨by decide, by decide, by decide⟩,
    minmax_scale_range [1, 3] 1 3 (by decide) (by decide) (by decide)⟩

/-- Python slice a[i:j] for 0 ≤ i ≤ j. -/
def pySlice {α : Type} (xs : List α) (i j : ℕ) : List α :=
  (xs.drop i).take (j - i)

/-- Embedding of the fft-based extractor in notebooks/utils/periodogram_dataset.py:
`fft(sound_samples, n=sample_rate)` yields `sample_rate` complex bins and the
code keeps `abs(periodogram[1:int(len(periodogram)/2)])`.  Only the bin
indices matter for the bin count, so the bins are modelled by their indices. -/
def fftPeriodogramBins (sampleRate : ℕ) : List ℕ :=
  pySlice (List.range sampleRate) 1 (sampleRate / 2)

/-- Embedding of the rfft-based extractor in
notebooks/utils/dataset/periodogram_dataset.py:
`np.fft.rfft(sound_samples, sampling_rate)` yields `sampling_rate/2 + 1`
one-sided bins and the code drops the zero-frequency bin via `[1:]`. -/
def rfftPeriodogramBins (samplingRate : ℕ) : List ℕ :=
  (List.range (samplingRate / 2 + 1)).drop 1

/-- C2 counterexample: the rfft-based periodogram extractor at
sample_rate = 16000 with no slicing returns 8000 bins, not 7999 as claimed
(a one-sided real FFT of length 16000 has 8001 bins; discarding the
zero-frequency bin leaves 8000). -/
theorem rfft_bin_count_cex :
    (rfftPeriodogramBins 16000).length = 8000 ∧ (8000 : ℕ) ≠ 7999 := by
  constructor
  · simp [rfftPeriodogramBins]
  · decide

/-- C2 amended: at sample_rate = 16000 with no slicing, the fft-based
extractor (notebooks/utils/periodogram_dataset.py) returns 7999 bins, while
the rfft-based extractor (notebooks/utils/dataset/periodogram_dataset.py)
returns 8000 bins. -/
theorem periodogram_bin_counts :
    (fftPeriodogramBins 16000).length = 7999 ∧
    (rfftPeriodogramBins 16000).length = 8000 := by
  constructor
  · simp [fftPeriodogramBins, pySlice]
  · simp [rfftPeriodogramBins]

/-- Embedding of `features_params_dict.get(key, default)` for natural-number
valued parameters, with the dictionary as an association list. -/
def dictGetNat (d : List (String × ℕ)) (k : String) (dflt : ℕ) : ℕ :=
  match d.find? (fun p => p.1 == k) with
  | some p => p.2
  | none => dflt

/-- Hop length chosen by `SoundFeatureFactory._get_spectrogram_dataset`:
`features_params_dict.get('hop_len', (4096//3)+30)`. -/
def spectrogramHopLen (d : List (String × ℕ)) : ℕ :=
  dictGetNat d "hop_len" (4096 / 3 + 30)

/-- Hop length chosen by `SoundFeatureFactory._get_melspectrogram_dataset`:
`features_params_dict.get('hop_len', (4096//3)+30)`. -/
def melspectrogramHopLen (d : List (String × ℕ)) : ℕ :=
  dictGetNat d "hop_len" (4096 / 3 + 30)

/-- C3 counterexample: with a parameter dictionary that omits hop_len, the
factory's default hop length is (4096 // 3) + 30 = 1395, not 1396. -/
theorem default_hop_len_cex :
    spectrogramHopLen [] = 1395 ∧ melspectrogramHopLen [] = 1395 ∧
    (1395 : ℕ) ≠ 1396 := by
  refine ⟨rfl, rfl, by decide⟩

/-- C3 amended: when the parameter dictionary has no hop_len key, both the
spectrogram and the mel-spectrogram dataset are constructed with hop
length 1395 = (4096 // 3) + 30. -/
theorem default_hop_len (d : List (String × ℕ))
    (h : d.find? (fun p => p.1 == "hop_len") = none) :
    spectrogramHopLen d = 1395 ∧ melspectrogramHopLen d = 1395 := by
  constructor
  · simp [spectrogramHopLen, dictGetNat, h]
  · simp [melspectrogramHopLen, dictGetNat, h]

/-- Witness for C3 amended at a concrete dictionary without hop_len. -/
theorem default_hop_len_witness :
    (([("nfft", 2048)] : List (String × ℕ)).find?
        (fun p => p.1 == "hop_len") = none) ∧
    spectrogramHopLen [("nfft", 2048)] = 1395 ∧
    melspectrogramHopLen [("nfft", 2048)] = 1395 :=
  ⟨by decide, default_hop_len [("nfft", 2048)] (by decide)⟩

/-- Embedding of the line `sound_samples = sound_samples/(2.0**31)` shared by
MelSpectrogramDataset.__getitem__ and PeriodogramDataset.__getitem__: every
sample read by `wavfile.read` is divided by 2^31, whatever integer dtype the
file actually contained. -/
def normalizeSamples (xs : List ℚ) : List ℚ :=
  xs.map (fun x => x / 2 ^ 31)

/-- Modelled from the spec for refinement comparison: normalization by the
full-scale divisor appropriate to the file's bit depth, i.e. division of a
signed b-bit sample by 2^(b-1). -/
def specNormalizeSamples (bitDepth : ℕ) (xs : List ℚ) : List ℚ :=
  xs.map (fun x => x / 2 ^ (bitDepth - 1))

/-- C6 counterexample: for a signed 16-bit file the appropriate full-scale
divisor is 2^15, but the code divides by 2^31 regardless, so the full-scale
16-bit sample 2^15 maps to 2^(-16) instead of 1. -/
theorem pcm_divisor_cex :
    normalizeSamples [(2 : ℚ) ^ 15] ≠ specNormalizeSamples 16 [(2 : ℚ) ^ 15] ∧
    normalizeSamples [(2 : ℚ) ^ 15] = [(2 : ℚ) ^ 15 / 2 ^ 31] ∧
    specNormalizeSamples 16 [(2 : ℚ) ^ 15] = [1] := by
  refine ⟨?_, rfl, ?_⟩
  · intro h
    simp only [normalizeSamples, specNormalizeSamples, List.map_cons,
      List.map_nil, List.cons.injEq, and_true] at h
    norm_num at h
  · simp only [specNormalizeSamples, List.map_cons, List.map_nil]
    norm_num

/-- C6 amended: integer PCM samples are always normalized by dividing by the
fixed divisor 2^31 (the signed 32-bit full scale), regardless of the file's
actual bit depth; this agrees with the spec's divisor exactly when the file
is signed 32-bit, and maps 32-bit-bounded samples into [-1, 1]. -/
theorem pcm_divisor_fixed (xs : List ℚ) (hb : ∀ x ∈ xs, |x| ≤ 2 ^ 31) :
    normalizeSamples xs = specNormalizeSamples 32 xs ∧
    ∀ y ∈ normalizeSamples xs, |y| ≤ 1 := by
  constructor
  · rfl
  · intro y hy
    rcases List.mem_map.mp hy with ⟨x, hx, hxy⟩
    rw [← hxy, abs_div]
    rw [div_le_one (by positivity)]
    calc |x| ≤ 2 ^ 31 := hb x hx
    _ = |(2 : ℚ) ^ 31| := by rw [abs_of_pos (by positivity)]

/-- Witness for C6 amended at the concrete sample list [2^31, -4]. -/
theorem pcm_divisor_fixed_witness :
    (∀ x ∈ [(2 : ℚ) ^ 31, -4], |x| ≤ 2 ^ 31) ∧
    normalizeSamples [(2 : ℚ) ^ 31, -4] =
      specNormalizeSamples 32 [(2 : ℚ) ^ 31, -4] ∧
    ∀ y ∈ normalizeSamples [(2 : ℚ) ^ 31, -4], |y| ≤ 1 := by
  have h : ∀ x ∈ [(2 : ℚ) ^ 31, -4], |x| ≤ 2 ^ 31 := by
    intro x hx
    rcases List.mem_cons.mp hx with rfl | hx
    · rw [abs_of_pos (by positivity)]
    · simp only [List.mem_cons, List.not_mem_nil, or_false] at hx
      subst hx
      rw [abs_of_neg (by norm_num)]
      norm_num
  exact ⟨h, pcm_divisor_fixed [(2 : ℚ) ^ 31, -4] h⟩

/-- Python str.split with an explicit one-character separator, over the
character list of the string: adjacent separators and edge separators yield
empty fields, and the empty string splits to one empty field. -/
def splitOnChar (sep : Char) : List Char → List (List Char)
  | [] => [[]]
  | c :: cs =>
    match splitOnChar sep cs, decide (c = sep) with
    | r, true => [] :: r
    | [], false => [[c]]
    | g :: gs, false => (c :: g) :: gs

/-- Embedding of `filename.split(os.sep)[-2].split("_")[0]` with os.sep = "/".
Python's index [-2] raises IndexError when the split has fewer than two
parts, modelled as none. -/
def hiveName (filename : String) : Option String :=
  match (splitOnChar '/' filename.data).reverse[1]? with
  | some part => some (String.mk ((splitOnChar '_' part).headI))
  | none => none

/-- Label lookup in MelSpectrogramDataset.__getitem__:
`next(index for index, name in enumerate(self.labels) if name == hive_name)
if self.labels else 0`; a non-empty label set without a match raises
StopIteration, modelled as none. -/
def melLabel (labels : List String) (hive : String) : Option ℕ :=
  if labels = [] then some 0 else labels.findIdx? (fun n => n == hive)

/-- Label lookup in PeriodogramDataset.__getitem__
(notebooks/utils/periodogram_dataset.py):
`next(index for index, name in enumerate(self.labels) if name == hive_name)`
with no emptiness guard, so an empty label set also raises StopIteration. -/
def perioLabel (labels : List String) (hive : String) : Option ℕ :=
  labels.findIdx? (fun n => n == hive)

/-- Full label derivation of MelSpectrogramDataset.__getitem__ from a path. -/
def melDeriveLabel (filename : String) (labels : List String) : Option ℕ :=
  (hiveName filename).bind (fun h => melLabel labels h)

/-- Full label derivation of PeriodogramDataset.__getitem__ from a path. -/
def perioDeriveLabel (filename : String) (labels : List String) : Option ℕ :=
  (hiveName filename).bind (fun h => perioLabel labels h)

/-- C4 counterexample: with an empty label set, PeriodogramDataset's item
access fails (StopIteration from the exhausted generator) instead of
deriving the default label index 0. -/
theorem perio_empty_labels_cex :
    perioDeriveLabel "data/hive1_2020/sound.wav" [] = none ∧
    none ≠ some (0 : ℕ) := by
  refine ⟨rfl, by decide⟩

/-- C4 amended: with an empty label set, MelSpectrogramDataset derives the
default label index 0 for every path on which hive-name extraction succeeds,
while PeriodogramDataset (notebooks/utils) has no empty-set fallback and
fails with StopIteration on every path. -/
theorem empty_labels_fallback (path : String)
    (h : (hiveName path).isSome = true) :
    melDeriveLabel path [] = some 0 ∧ perioDeriveLabel path [] = none := by
  rcases Option.isSome_iff_exists.mp h with ⟨hv, hh⟩
  constructor
  · simp [melDeriveLabel, hh, melLabel]
  · simp [perioDeriveLabel, hh, perioLabel]

/-- Witness for C4 amended at a concrete path. -/
theorem empty_labels_fallback_witness :
    (hiveName "data/hive1_2020/sound.wav").isSome = true ∧
    melDeriveLabel "data/hive1_2020/sound.wav" [] = some 0 ∧
    perioDeriveLabel "data/hive1_2020/sound.wav" [] = none :=
  ⟨by decide, empty_labels_fallback "data/hive1_2020/sound.wav" (by decide)⟩

/-- C5: label derivation (parent-directory name, split on the underscore,
first token, matched against the label set) is deterministic — both dataset
classes compute it as a pure function of the path and the label set — and
for every path whose directory token is absent from a non-empty label set it
fails (StopIteration from the exhausted generator) rather than returning an
index. -/
theorem label_derivation_det_notfound (path : String) (labels : List String)
    (hive : String) (hh : hiveName path = some hive)
    (hne : labels ≠ []) (habs : hive ∉ labels) :
    melDeriveLabel path labels = melDeriveLabel path labels ∧
    perioDeriveLabel path labels = perioDeriveLabel path labels ∧
    melDeriveLabel path labels = none ∧
    perioDeriveLabel path labels = none := by
  have hfind : labels.findIdx? (fun n => n == hive) = none := by
    rw [List.findIdx?_eq_none_iff]
    intro x hx
    simp only [beq_eq_false_iff_ne, ne_eq]
    intro hxe
    exact habs (hxe ▸ hx)
  refine ⟨rfl, rfl, ?_, ?_⟩
  · simp [melDeriveLabel, hh, melLabel, hne, hfind]
  · simp [perioDeriveLabel, hh, perioLabel, hfind]

/-- Witness for C5 at a concrete path and a non-empty label set missing the
path's token. -/
theorem label_derivation_det_notfound_witness :
    (hiveName "data/hive9_2020/sound.wav" = some "hive9" ∧
      (["hive1", "hive2"] : List String) ≠ [] ∧
      "hive9" ∉ (["hive1", "hive2"] : List String)) ∧
    melDeriveLabel "data/hive9_2020/sound.wav" ["hive1", "hive2"] = none ∧
    perioDeriveLabel "data/hive9_2020/sound.wav" ["hive1", "hive2"] = none :=
  ⟨⟨by decide, by decide, by decide⟩,
    (label_derivation_det_notfound "data/hive9_2020/sound.wav"
      ["hive1", "hive2"] "hive9" (by decide) (by decide) (by decide)).2.2⟩

/-- Embedding of the SoundFeatureType enum in src/utils/feature_factory.py. -/
inductive SoundFeatureType where
  | SPECTROGRAM : SoundFeatureType
  | MELSPECTROGRAM : SoundFeatureType
  | PERIODOGRAM : SoundFeatureType
  | MFCC : SoundFeatureType
  | BIOINDICIES : SoundFeatureType
deriving DecidableEq

/-- String value of each enum member; note the code spells the last value
"indicies". -/
def SoundFeatureType.value : SoundFeatureType → String
  | SoundFeatureType.SPECTROGRAM => "spectrogram"
  | SoundFeatureType.MELSPECTROGRAM => "melspectrogram"
  | SoundFeatureType.PERIODOGRAM => "periodogram"
  | SoundFeatureType.MFCC => "mfcc"
  | SoundFeatureType.BIOINDICIES => "indicies"

/-- Enum members in declaration order, as iterated by
`SoundFeatureType.__members__.items()`. -/
def SoundFeatureType.members : List SoundFeatureType :=
  [SoundFeatureType.SPECTROGRAM, SoundFeatureType.MELSPECTROGRAM,
    SoundFeatureType.PERIODOGRAM, SoundFeatureType.MFCC,
    SoundFeatureType.BIOINDICIES]

/-- Embedding of SoundFeatureType.from_name: return the first member whose
value equals the name, else raise ValueError (modelled as none).  This is
the factory's construction-time selector validation. -/
def SoundFeatureType.from_name (name : String) : Option SoundFeatureType :=
  SoundFeatureType.members.find? (fun f => f.value == name)

/-- C7 counterexample: the selector "indicies" (the code's spelling) lies
outside the claim's enumerated set, which ends in "indices", yet the factory
accepts it and does not fail. -/
theorem from_name_indicies_cex :
    SoundFeatureType.from_name "indicies" = some SoundFeatureType.BIOINDICIES ∧
    "indicies" ∉
      ["spectrogram", "melspectrogram", "periodogram", "mfcc", "indices"] := by
  refine ⟨by decide, by decide⟩

/-- C7 amended: for every selector value that is not in the code's
enumerated feature-type set (spectrogram, melspectrogram, periodogram, mfcc,
indicies), SoundFeatureType.from_name fails with ValueError at construction
time, before any dataset is produced. -/
theorem from_name_unknown (name : String)
    (h : name ∉
      ["spectrogram", "melspectrogram", "periodogram", "mfcc", "indicies"]) :
    SoundFeatureType.from_name name = none := by
  rw [SoundFeatureType.from_name, List.find?_eq_none]
  intro f hf
  simp only [List.mem_cons, List.not_mem_nil, or_false] at h
  push_neg at h
  obtain ⟨h1, h2, h3, h4, h5⟩ := h
  simp only [SoundFeatureType.members, List.mem_cons, List.not_mem_nil,
    or_false] at hf
  rcases hf with rfl | rfl | rfl | rfl | rfl
  · simp only [SoundFeatureType.value, beq_iff_eq]
    exact fun e => h1 e.symm
  · simp only [SoundFeatureType.value, beq_iff_eq]
    exact fun e => h2 e.symm
  · simp only [SoundFeatureType.value, beq_iff_eq]
    exact fun e => h3 e.symm
  · simp only [SoundFeatureType.value, beq_iff_eq]
    exact fun e => h4 e.symm
  · simp only [SoundFeatureType.value, beq_iff_eq]
    exact fun e => h5 e.symm

/-- Witness for C7 amended at the concrete unknown selector "wavelet". -/
theorem from_name_unknown_witness :
    ("wavelet" ∉
      ["spectrogram", "melspectrogram", "periodogram", "mfcc", "indicies"]) ∧
    SoundFeatureType.from_name "wavelet" = none :=
  ⟨by decide, from_name_unknown "wavelet" (by decide)⟩

/-- Embedding of the constructor state of MelSpectrogramDataset
(notebooks/data/melspectrogram_dataset.py): files, labels and the transform
parameters stored by __init__. -/
structure MelSpectrogramDataset where
  files : List String
  labels : List String
  nfft : ℕ
  hop_len : ℕ
  mels : ℕ

/-- MelSpectrogramDataset.__len__ returns len(self.files). -/
def MelSpectrogramDataset.len (d : MelSpectrogramDataset) : ℕ :=
  d.files.length

/-- Embedding of the constructor state of the fft-based PeriodogramDataset
(notebooks/utils/periodogram_dataset.py). -/
structure PeriodogramDatasetU where
  files : List String
  labels : List String
  slice_freq : Option (ℕ × ℕ)

/-- PeriodogramDataset.__len__ (notebooks/utils) returns len(self.files). -/
def PeriodogramDatasetU.len (d : PeriodogramDatasetU) : ℕ :=
  d.files.length

/-- Modelled from the spec: the class Sound (utils/dataset/sound.py) is not
under src/; per the spec the Sound Reader binds the manifest of audio file
paths and the ordered label-name list, and Sound.__init__(filenames, hives)
stores them on the instance. -/
structure Sound where
  filenames : List String
  labels : List String

/-- Embedding of the constructor state of the rfft-based PeriodogramDataset
(notebooks/utils/dataset/periodogram_dataset.py), which initializes its
Sound base with the filenames and labels. -/
structure PeriodogramDatasetD where
  sound : Sound
  scale_db : Bool
  slice_freq : Option (ℕ × ℕ)

/-- PeriodogramDataset.__len__ (notebooks/utils/dataset) returns
len(self.filenames), the list stored by Sound.__init__. -/
def PeriodogramDatasetD.len (d : PeriodogramDatasetD) : ℕ :=
  d.sound.filenames.length

/-- C9: for every dataset constructed from a list of filenames and a label
set, length() equals the number of files supplied at construction, for all
three dataset classes; item access is a pure function of the constructed
dataset and the index, so the length never changes across accesses. -/
theorem dataset_len_eq (files labels : List String) (nfft hop mels : ℕ)
    (sdb : Bool) (sf : Option (ℕ × ℕ)) :
    (MelSpectrogramDataset.mk files labels nfft hop mels).len = files.length ∧
    (PeriodogramDatasetU.mk files labels sf).len = files.length ∧
    (PeriodogramDatasetD.mk (Sound.mk files labels) sdb sf).len =
      files.length :=
  ⟨rfl, rfl, rfl⟩

/-- Python value usable as a list index in MelSpectrogramDataset.sample:
the default None, an integer, or the float produced by random.uniform. -/
inductive PyIdx where
  | pynone : PyIdx
  | pyint : ℤ → PyIdx
  | pyfloat : ℚ → PyIdx

/-- Python truthiness test `not idx` used by sample: None, 0 and 0.0 are
falsy. -/
def PyIdx.falsy : PyIdx → Bool
  | PyIdx.pynone => true
  | PyIdx.pyint n => n == 0
  | PyIdx.pyfloat q => q == 0

/-- Python list indexing `self.files[idx]`: an integer index is accepted
(with negative-index wrap-around, IndexError when out of range), while a
float or None raises TypeError — list indices must be integers. -/
def pyListGet (l : List String) : PyIdx → Except String String
  | PyIdx.pyint n =>
    match (if 0 ≤ (if n < 0 then n + l.length else n) then
        l[(if n < 0 then n + l.length else n).toNat]? else none) with
    | some v => Except.ok v
    | none => Except.error "IndexError: list index out of range"
  | _ => Except.error "TypeError: list indices must be integers"

/-- Embedding of MelSpectrogramDataset.sample up to the point where
__getitem__ evaluates `self.files[idx]`: a falsy idx (the default None, or
0) is replaced by `random.uniform(0, len(self.files))`, whose float draw is
modelled by the argument u, and the resulting index is used to subscript the
file list. -/
def MelSpectrogramDataset.sampleFile (d : MelSpectrogramDataset)
    (idx : PyIdx) (u : ℚ) : Except String String :=
  pyListGet d.files (if idx.falsy then PyIdx.pyfloat u else idx)

/-- C10: calling MelSpectrogramDataset.sample with idx = 0 (or the default
None) never returns the item at index 0: the falsy idx is replaced by the
float returned by random.uniform(0, len(files)), and subscripting the file
list with a non-integer index raises TypeError for every possible draw. -/
theorem sample_idx_zero_fails (d : MelSpectrogramDataset) (u : ℚ) :
    d.sampleFile (PyIdx.pyint 0) u =
      Except.error "TypeError: list indices must be integers" ∧
    d.sampleFile PyIdx.pynone u =
      Except.error "TypeError: list indices must be integers" := by
  constructor
  · simp [MelSpectrogramDataset.sampleFile, PyIdx.falsy, pyListGet]
  · simp [MelSpectrogramDataset.sampleFile, PyIdx.falsy, pyListGet]

/-- Validation-set size in SoundFeatureFactory.build_dataloaders:
`val_amount = int(dataset.__len__() * ratio)`; Python's int() truncates
toward zero, which is the floor for a non-negative ratio. -/
def valAmount (n : ℕ) (r : ℚ) : ℕ :=
  (Int.floor ((n : ℚ) * r)).toNat

/-- Train half of `random_split(dataset, [n - val_amount, val_amount])`:
torch draws a random permutation of the indices and gives the first
`n - val_amount` of them to the first subset. -/
def randomSplitTrain (perm : List ℕ) (n : ℕ) (r : ℚ) : List ℕ :=
  perm.take (n - valAmount n r)

/-- Validation half of the same split: the remaining `val_amount` permuted
indices. -/
def randomSplitVal (perm : List ℕ) (n : ℕ) (r : ℚ) : List ℕ :=
  perm.drop (n - valAmount n r)

/-- C8: for a dataset of n items and validation ratio r (0 ≤ r ≤ 1), the
split utility partitions the indices into a validation set of exactly
floor(r * n) items and a train set of n - floor(r * n) items, and the two
parts are disjoint and jointly exhaustive over the indices, for every
permutation the underlying random draw can produce. -/
theorem split_partition (n : ℕ) (r : ℚ) (perm : List ℕ)
    (hperm : perm.Perm (List.range n)) (_h0 : 0 ≤ r) (h1 : r ≤ 1) :
    (randomSplitVal perm n r).length = (Int.floor ((n : ℚ) * r)).toNat ∧
    (randomSplitTrain perm n r).length =
      n - (Int.floor ((n : ℚ) * r)).toNat ∧
    (∀ i ∈ randomSplitTrain perm n r, i ∉ randomSplitVal perm n r) ∧
    (∀ i, i < n →
      i ∈ randomSplitTrain perm n r ∨ i ∈ randomSplitVal perm n r) := by
  have hlen : perm.length = n := by
    rw [hperm.length_eq, List.length_range]
  have hval_le : valAmount n r ≤ n := by
    have hfl : Int.floor ((n : ℚ) * r) ≤ (n : ℤ) := by
      have : (n : ℚ) * r ≤ (n : ℚ) := by
        calc (n : ℚ) * r ≤ (n : ℚ) * 1 :=
          mul_le_mul_of_nonneg_left h1 (by positivity)
        _ = (n : ℚ) := mul_one _
      calc Int.floor ((n : ℚ) * r) ≤ Int.floor ((n : ℚ)) := Int.floor_le_floor this
      _ = (n : ℤ) := Int.floor_natCast n
    calc valAmount n r ≤ (n : ℤ).toNat := Int.toNat_le_toNat hfl
    _ = n := Int.toNat_natCast n
  have hv : valAmount n r = (Int.floor ((n : ℚ) * r)).toNat := rfl
  rw [hv] at hval_le
  refine ⟨?_, ?_, ?_, ?_⟩
  · rw [randomSplitVal, List.length_drop, hlen, hv]
    omega
  · rw [randomSplitTrain, List.length_take, hlen, hv]
    omega
  · intro i hi hi2
    have hnd : perm.Nodup := hperm.nodup_iff.mpr (List.nodup_range n)
    exact List.disjoint_take_drop hnd (le_refl _) hi hi2
  · intro i hi
    have hmem : i ∈ perm := hperm.mem_iff.mpr (List.mem_range.mpr hi)
    rw [← List.take_append_drop (n - valAmount n r) perm] at hmem
    exact List.mem_append.mp hmem

/-- Witness for C8: for n = 1000 items and ratio 3/20 = 0.15 with the
identity permutation, the validation part has exactly 150 indices and the
train part 850. -/
theorem split_partition_witness :
    ((List.range 1000).Perm (List.range 1000) ∧
      (0 : ℚ) ≤ 3 / 20 ∧ (3 : ℚ) / 20 ≤ 1) ∧
    (randomSplitVal (List.range 1000) 1000 (3 / 20)).length = 150 ∧
    (randomSplitTrain (List.range 1000) 1000 (3 / 20)).length = 850 := by
  have h := split_partition 1000 (3 / 20) (List.range 1000)
    (List.Perm.refl _) (by norm_num) (by norm_num)
  have hfl : (Int.floor (((1000 : ℕ) : ℚ) * (3 / 20))).toNat = 150 := by
    norm_num
    rfl
  refine ⟨⟨List.Perm.refl _, by norm_num, by norm_num⟩, ?_, ?_⟩
  · rw [h.1, hfl]
  · rw [h.2.1, hfl]

end Smartula
